import Mathlib

/-!
Verification of the per-trial stimulus-synthesis pipeline demonstrated in
`docs/examples/psychopy_experiments.ipynb`.

The notebook builds, at each trial of an adaptive staircase experiment, a
noise-masked stimulus: it normalizes reference recordings to a standard
intensity once at experiment start, then per trial draws a condition, draws
Gaussian noise with the reference's sample count and rate, scales the noise
to `STANDARD_INTENSITY - level`, adds the reference into the noise buffer,
re-normalizes the mix to `STANDARD_INTENSITY`, resamples to 44100 Hz and
saves under `filename + "_stimulus_" + str(trials.thisTrialN) + ".wav"`.

Real-valued sample data is embedded as `List ℝ`.  The notebook's two random
sources are modelled explicitly: the Python `random` module (seeded with
`random.seed(42)` in the notebook) and the global NumPy generator used by
`np.random.normal` (never seeded in the notebook).  Intensity measurement,
intensity scaling and resampling are Praat/Parselmouth library routines whose
code is not part of the example file; they are modelled from the spec where
indicated.
-/

namespace StimulusPipeline

open Classical

/-- A mono audio signal: an ordered sequence of amplitude samples together
with its sampling rate in Hz. -/
structure SoundBuffer where
  samples : List ℝ
  sampleRate : ℕ

/-- Errors of the synthesis pipeline's components. -/
inductive SynthError where
  | silentBuffer
  | sampleRateMismatch
  | lengthMismatch
deriving DecidableEq

/-- The `STANDARD_INTENSITY = 70.` constant from the notebook's
Begin Experiment cell. -/
def STANDARD_INTENSITY : ℝ := 70

/-- Modelled from the spec: the fixed reference pressure constant that
decibel values are expressed against (the auditory reference 2·10⁻⁵);
the Praat implementation behind `scale_intensity` is not in src. -/
noncomputable def refPressure : ℝ := 2 / 100000

/-- Mean square (power) of a buffer's samples. -/
noncomputable def meanSq (B : SoundBuffer) : ℝ :=
  ((B.samples.map fun x => x ^ 2).sum) / B.samples.length

/-- Root-mean-square amplitude of a buffer. -/
noncomputable def rms (B : SoundBuffer) : ℝ :=
  Real.sqrt (meanSq B)

/-- Modelled from the spec: the dB value `measureIntensity` returns on a
non-silent buffer — RMS power in decibels relative to `refPressure`
(the Praat intensity computation behind `scale_intensity` is not in src). -/
noncomputable def measureVal (B : SoundBuffer) : ℝ :=
  10 * Real.logb 10 (meanSq B / refPressure ^ 2)

/-- Modelled from the spec: `measureIntensity(buffer) -> dB` computes RMS
amplitude converted to decibels relative to the fixed reference constant and
fails with `SilentBufferError` if RMS is exactly zero. -/
noncomputable def measureIntensity (B : SoundBuffer) : Except SynthError ℝ :=
  if meanSq B = 0 then .error .silentBuffer else .ok (measureVal B)

/-- The linear gain that brings `B` to intensity `targetDb`. -/
noncomputable def scaleFactor (B : SoundBuffer) (targetDb : ℝ) : ℝ :=
  (10 : ℝ) ^ ((targetDb - measureVal B) / 20)

/-- The buffer `scaleToIntensity` returns on a non-silent input: every
sample multiplied by `scaleFactor`. -/
noncomputable def scaleValBuf (B : SoundBuffer) (targetDb : ℝ) : SoundBuffer :=
  ⟨B.samples.map fun x => x * scaleFactor B targetDb, B.sampleRate⟩

/-- Modelled from the spec: `scaleToIntensity(buffer, targetDb)` returns a
buffer whose samples are `buffer.samples * 10^((targetDb - measureIntensity(buffer))/20)`,
failing with `SilentBufferError` on a zero-RMS input (the Praat code behind
the notebook's `scale_intensity` calls is not in src). -/
noncomputable def scaleToIntensity (B : SoundBuffer) (targetDb : ℝ) :
    Except SynthError SoundBuffer :=
  if meanSq B = 0 then .error .silentBuffer else .ok (scaleValBuf B targetDb)

/-- State of the global NumPy generator behind `np.random.normal`: a stream
of real draws and a position.  The Gaussian distribution of the draws plays
no role in the claims, so the stream's values are unconstrained. -/
structure NpRng where
  stream : ℕ → ℝ
  pos : ℕ

/-- State of the Python `random` module behind `random.choice`: a stream of
natural draws and a position. -/
structure PyRng where
  stream : ℕ → ℕ
  pos : ℕ

/-- The notebook's `conditions = ['a', 'e']`. -/
def conditions : List String := ["a", "e"]

/-- The notebook's `random.choice(conditions)`: consume one draw from the
Python `random` module state and pick an element. -/
def randomChoice (l : List String) (r : PyRng) : String × PyRng :=
  (l.getD (r.stream r.pos % l.length) "", ⟨r.stream, r.pos + 1⟩)

/-- The notebook's `np.random.normal(size=n)` wrapped into a buffer at the
given rate: consume `n` draws from the global NumPy generator state. -/
noncomputable def generateNoise (n : ℕ) (rate : ℕ) (rng : NpRng) :
    SoundBuffer × NpRng :=
  (⟨(List.range n).map fun i => rng.stream (rng.pos + i), rate⟩,
    ⟨rng.stream, rng.pos + n⟩)

/-- The notebook's `noisy_stimulus.values += random_stimulus.values`: NumPy
element-wise in-place addition of the underlying sample arrays.  NumPy adds
the arrays whenever their shapes match, knowing nothing about sampling
rates; on a shape mismatch it raises (modelled as `lengthMismatch`).  The
result keeps the target buffer's rate. -/
def addValues (target src : SoundBuffer) : Except SynthError SoundBuffer :=
  if target.samples.length = src.samples.length then
    .ok ⟨target.samples.zipWith (· + ·) src.samples, target.sampleRate⟩
  else
    .error .lengthMismatch

/-- The per-trial synthesis core from the Begin Routine cell: generate noise
with the reference's sample count at the reference's rate, scale it to
`std - level`, add the reference in, and re-normalize the mix to `std`.
Returns the advanced NumPy generator state alongside the result. -/
noncomputable def synthesize (R : SoundBuffer) (level std : ℝ) (rng : NpRng) :
    Except SynthError SoundBuffer × NpRng :=
  let gen := generateNoise R.samples.length R.sampleRate rng
  (do
    let scaledNoise ← scaleToIntensity gen.1 (std - level)
    let mixed ← addValues scaledNoise R
    scaleToIntensity mixed std,
   gen.2)

/-- Modelled from the spec: `resample(buffer, targetRate)` returns the input
unchanged when `targetRate` equals the buffer's rate, and otherwise produces
a buffer at `targetRate` whose sample count is the duration-preserving
rounding of `len · targetRate / rate` (the Praat band-limited interpolation
behind the notebook's `.resample(44100)` is not in src; the interpolation
kernel is abstracted as nearest-sample lookup, which no claim constrains). -/
noncomputable def resample (B : SoundBuffer) (targetRate : ℕ) : SoundBuffer :=
  if targetRate = B.sampleRate then B
  else
    let newLen := (2 * B.samples.length * targetRate + B.sampleRate) /
      (2 * B.sampleRate)
    ⟨(List.range newLen).map fun j =>
      B.samples.getD (j * B.sampleRate / targetRate) 0, targetRate⟩

/-- Duration of a buffer in seconds. -/
noncomputable def duration (B : SoundBuffer) : ℝ :=
  (B.samples.length : ℝ) / (B.sampleRate : ℝ)

/-- The notebook's output file name construction
`filename + "_stimulus_" + str(trials.thisTrialN) + ".wav"`. -/
def buildPath (baseName : String) (trialIndex : ℕ) : String :=
  baseName ++ "_stimulus_" ++ toString trialIndex ++ ".wav"

/-- What one Begin Routine run hands to the host on success: the drawn
condition, the output file name, and the buffer written to that file. -/
structure SavedStimulus where
  condition : String
  fileName : String
  savedBuffer : SoundBuffer

/-- Result of one Begin Routine run: the condition library and both random
source states after the run, plus the outcome. -/
structure RoutineOut where
  stimuli : String → SoundBuffer
  pyRng : PyRng
  npRng : NpRng
  outcome : Except SynthError SavedStimulus

/-- The Begin Routine cell: draw a condition with `random.choice`, look the
reference up in the `stimuli` library, run the synthesis core, resample the
mix to 44100 Hz and save it under the constructed file name.  The library is
only read; the in-place operations of the source all target the
freshly-created `noisy_stimulus` buffer. -/
noncomputable def beginRoutine (stimuli : String → SoundBuffer) (level : ℝ)
    (filename : String) (thisTrialN : ℕ) (py : PyRng) (np : NpRng) :
    RoutineOut :=
  let choice := randomChoice conditions py
  let random_stimulus := stimuli choice.1
  let syn := synthesize random_stimulus level STANDARD_INTENSITY np
  { stimuli := stimuli
    pyRng := choice.2
    npRng := syn.2
    outcome := syn.1.map fun buf =>
      { condition := choice.1
        fileName := buildPath filename thisTrialN
        savedBuffer := resample buf 44100 } }

/-- The End Routine cell's response computation:
`trials.addResponse(key_resp_2.keys == random_condition)`. -/
def endRoutineResponse (keys : String) (random_condition : String) : Bool :=
  keys == random_condition

/-- Decimal digit characters of `n`, most significant first; the list that
`Nat.toDigitsCore` produces when given enough fuel. -/
def decDigits (n : ℕ) : List Char :=
  if h : n < 10 then [Nat.digitChar (n % 10)]
  else decDigits (n / 10) ++ [Nat.digitChar (n % 10)]
termination_by n
decreasing_by exact Nat.div_lt_self (by omega) (by omega)

/-- Reads a decimal digit-character list back as a number; a left inverse of
`decDigits`. -/
def digitsVal (l : List Char) : ℕ :=
  l.foldl (fun acc c => 10 * acc + (c.toNat - 48)) 0

/-- Concrete reference buffer used to witness the synthesis theorems. -/
def wRef : SoundBuffer := ⟨[1, 1], 44100⟩

/-- Concrete NumPy generator state (all draws 1) for the witnesses. -/
def wRng : NpRng := ⟨fun _ => 1, 0⟩

/-- The standard intensity of the witness reference: its own measured value,
so that the normalization precondition holds exactly. -/
noncomputable def wStd : ℝ := measureVal wRef

/-- The noise buffer the witness run generates. -/
noncomputable def wNoise : SoundBuffer :=
  (generateNoise wRef.samples.length wRef.sampleRate wRng).1

/-- The witness run's noise scaled to `wStd - 10`. -/
noncomputable def wNs : SoundBuffer := scaleValBuf wNoise (wStd - 10)

/-- The witness run's mixed buffer before re-normalization. -/
noncomputable def wMix : SoundBuffer :=
  ⟨wNs.samples.zipWith (· + ·) wRef.samples, wRef.sampleRate⟩

/-- Condition library for the determinism counterexample: both conditions
map to the same two-sample reference at 44100 Hz. -/
def cLib : String → SoundBuffer := fun _ => ⟨[1, 0], 44100⟩

/-- Python `random` module state shared by both counterexample runs (models
`random.seed(42)` seeding only this module). -/
def cPy : PyRng := ⟨fun _ => 0, 0⟩

/-- First global NumPy state: draws 1, 1. -/
def cNpA : NpRng := ⟨fun _ => 1, 0⟩

/-- Second global NumPy state: draws 1, -1. -/
noncomputable def cNpB : NpRng := ⟨fun i => if i = 0 then 1 else -1, 0⟩

/-- The noise buffer a `synthesize` run generates from its generator state. -/
noncomputable def noiseOf (R : SoundBuffer) (rng : NpRng) : SoundBuffer :=
  (generateNoise R.samples.length R.sampleRate rng).1

/-- The mixed buffer of a `synthesize` run, before the final
re-normalization: scaled noise plus reference, sample-wise, at the
reference's rate. -/
noncomputable def mixedOf (R : SoundBuffer) (L std : ℝ) (rng : NpRng) :
    SoundBuffer :=
  ⟨(scaleValBuf (noiseOf R rng) (std - L)).samples.zipWith (· + ·) R.samples,
    R.sampleRate⟩

/-! ### Basic facts about power and intensity -/

lemma meanSq_nonneg (B : SoundBuffer) : 0 ≤ meanSq B := by
  apply div_nonneg _ (Nat.cast_nonneg _)
  apply List.sum_nonneg
  intro x hx
  obtain ⟨y, -, rfl⟩ := List.mem_map.mp hx
  positivity

lemma refPressure_pos : 0 < refPressure := by norm_num [refPressure]

lemma scaleFactor_pos (B : SoundBuffer) (t : ℝ) : 0 < scaleFactor B t :=
  Real.rpow_pos_of_pos (by norm_num) _

lemma sum_map_sq_mul (l : List ℝ) (f : ℝ) :
    ((l.map fun x => x * f).map fun x => x ^ 2).sum =
      f ^ 2 * (l.map fun x => x ^ 2).sum := by
  induction l with
  | nil => simp
  | cons a l ih => simp only [List.map_cons, List.sum_cons, ih]; ring

lemma meanSq_scaleValBuf (B : SoundBuffer) (t : ℝ) :
    meanSq (scaleValBuf B t) = scaleFactor B t ^ 2 * meanSq B := by
  simp only [meanSq, scaleValBuf, sum_map_sq_mul, List.length_map]
  ring

lemma rms_eq_zero_iff (B : SoundBuffer) : rms B = 0 ↔ meanSq B = 0 := by
  rw [rms, Real.sqrt_eq_zero (meanSq_nonneg B)]

lemma measureVal_scaleValBuf (B : SoundBuffer) (t : ℝ) (h : meanSq B ≠ 0) :
    measureVal (scaleValBuf B t) = t := by
  have hf : scaleFactor B t ^ 2 = (10 : ℝ) ^ ((t - measureVal B) / 10) := by
    rw [scaleFactor, ← Real.rpow_natCast ((10 : ℝ) ^ ((t - measureVal B) / 20)) 2,
      ← Real.rpow_mul (by norm_num)]
    congr 1
    ring
  have hP : refPressure ^ 2 ≠ 0 := pow_ne_zero 2 (ne_of_gt refPressure_pos)
  have h1 : meanSq B / refPressure ^ 2 ≠ 0 := div_ne_zero h hP
  have h2 : scaleFactor B t ^ 2 ≠ 0 := ne_of_gt (pow_pos (scaleFactor_pos B t) 2)
  simp only [measureVal]
  rw [meanSq_scaleValBuf, mul_div_assoc, Real.logb_mul h2 h1, hf,
    Real.logb_rpow (by norm_num) (by norm_num)]
  simp only [measureVal]
  ring

lemma meanSq_scaleValBuf_ne (B : SoundBuffer) (t : ℝ) (h : meanSq B ≠ 0) :
    meanSq (scaleValBuf B t) ≠ 0 := by
  rw [meanSq_scaleValBuf]
  exact mul_ne_zero (ne_of_gt (pow_pos (scaleFactor_pos B t) 2)) h

lemma except_bind_ok {ε α β : Type} (a : α) (f : α → Except ε β) :
    (Except.ok a : Except ε α) >>= f = f a := rfl

lemma beginRoutine_outcome (stimuli : String → SoundBuffer) (level : ℝ)
    (filename : String) (thisTrialN : ℕ) (py : PyRng) (np : NpRng) :
    (beginRoutine stimuli level filename thisTrialN py np).outcome =
      (synthesize (stimuli (randomChoice conditions py).1) level
          STANDARD_INTENSITY np).1.map fun buf =>
        ⟨(randomChoice conditions py).1, buildPath filename thisTrialN,
          resample buf 44100⟩ := rfl

lemma scaleValBuf_factor_one (X : SoundBuffer) (t : ℝ)
    (h : scaleFactor X t = 1) : scaleValBuf X t = X := by
  rw [scaleValBuf, h]
  simp

lemma resample_noop (X : SoundBuffer) (r : ℕ) (h : X.sampleRate = r) :
    resample X r = X := by
  rw [resample, if_pos h.symm]

lemma scaleFactor_congr (X Y : SoundBuffer) (t : ℝ) (h : meanSq X = meanSq Y) :
    scaleFactor X t = scaleFactor Y t := by
  rw [scaleFactor, scaleFactor, measureVal, measureVal, h]

/-- Evaluation of the synthesis core when neither the noise nor the mix is
silent: the successful path of the Begin Routine pipeline. -/
lemma synthesize_eval (R : SoundBuffer) (L std : ℝ) (rng : NpRng)
    (hN : meanSq (noiseOf R rng) ≠ 0) (hM : meanSq (mixedOf R L std rng) ≠ 0) :
    synthesize R L std rng =
      (.ok (scaleValBuf (mixedOf R L std rng) std),
        ⟨rng.stream, rng.pos + R.samples.length⟩) := by
  have hsn : scaleToIntensity (noiseOf R rng) (std - L) =
      .ok (scaleValBuf (noiseOf R rng) (std - L)) := by
    rw [scaleToIntensity, if_neg hN]
  have hlen : (scaleValBuf (noiseOf R rng) (std - L)).samples.length =
      R.samples.length := by
    simp [scaleValBuf, noiseOf, generateNoise]
  have hmix : addValues (scaleValBuf (noiseOf R rng) (std - L)) R =
      .ok (mixedOf R L std rng) := by
    rw [addValues, if_pos hlen]
    rfl
  have hms : scaleToIntensity (mixedOf R L std rng) std =
      .ok (scaleValBuf (mixedOf R L std rng) std) := by
    rw [scaleToIntensity, if_neg hM]
  unfold noiseOf at hsn hmix
  simp only [synthesize, hsn, except_bind_ok, hmix, hms]
  rfl

/-! ### Claim theorems -/

/-- C3: for every buffer `B` with nonzero RMS and every target `t` dB,
`scaleToIntensity(B, t)` returns the buffer whose samples are
`B.samples * 10^((t - measureIntensity(B))/20)`, and measuring the intensity
of that result yields `t` — here exactly, hence within 0.01 dB. -/
theorem scaleToIntensity_spec (B : SoundBuffer) (t : ℝ) (h : rms B ≠ 0) :
    scaleToIntensity B t =
      .ok ⟨B.samples.map fun x => x * (10 : ℝ) ^ ((t - measureVal B) / 20),
        B.sampleRate⟩
    ∧ measureIntensity (scaleValBuf B t) = .ok t
    ∧ |measureVal (scaleValBuf B t) - t| ≤ 0.01 := by
  have hm : meanSq B ≠ 0 := fun h0 => h ((rms_eq_zero_iff B).mpr h0)
  refine ⟨?_, ?_, ?_⟩
  · rw [scaleToIntensity, if_neg hm]
    rfl
  · rw [measureIntensity, if_neg (meanSq_scaleValBuf_ne B t hm),
      measureVal_scaleValBuf B t hm]
  · rw [measureVal_scaleValBuf B t hm, sub_self, abs_zero]
    norm_num

/-- Witness for C3 at the concrete buffer `wRef = ⟨[1, 1], 44100⟩` and
target 50 dB. -/
theorem scaleToIntensity_spec_witness :
    rms wRef ≠ 0 ∧
      (scaleToIntensity wRef 50 =
        .ok ⟨wRef.samples.map fun x => x * (10 : ℝ) ^ ((50 - measureVal wRef) / 20),
          wRef.sampleRate⟩
      ∧ measureIntensity (scaleValBuf wRef 50) = .ok 50
      ∧ |measureVal (scaleValBuf wRef 50) - 50| ≤ 0.01) := by
  have h : rms wRef ≠ 0 := by
    rw [rms, show meanSq wRef = 1 by norm_num [meanSq, wRef], Real.sqrt_one]
    norm_num
  exact ⟨h, scaleToIntensity_spec wRef 50 h⟩

/-- C5: applying `scaleToIntensity` twice with the same target yields the
same result as applying it once — exactly, in the real-valued model. -/
theorem scaleToIntensity_idem (B C : SoundBuffer) (t : ℝ)
    (h : scaleToIntensity B t = .ok C) : scaleToIntensity C t = .ok C := by
  rw [scaleToIntensity] at h
  by_cases hm : meanSq B = 0
  · rw [if_pos hm] at h
    exact absurd h (by simp)
  · rw [if_neg hm] at h
    have hC : scaleValBuf B t = C := Except.ok.inj h
    subst hC
    rw [scaleToIntensity, if_neg (meanSq_scaleValBuf_ne B t hm)]
    have h1 : scaleFactor (scaleValBuf B t) t = 1 := by
      rw [scaleFactor, measureVal_scaleValBuf B t hm, sub_self, zero_div,
        Real.rpow_zero]
    exact congrArg Except.ok (scaleValBuf_factor_one _ _ h1)

/-- Witness for C5: the scaled witness buffer is a fixed point of scaling to
the same target. -/
theorem scaleToIntensity_idem_witness :
    scaleToIntensity (scaleValBuf wRef 50) 50 = .ok (scaleValBuf wRef 50) := by
  have h : scaleToIntensity wRef 50 = .ok (scaleValBuf wRef 50) := by
    rw [scaleToIntensity, if_neg (by norm_num [meanSq, wRef])]
  exact scaleToIntensity_idem wRef (scaleValBuf wRef 50) 50 h

/-- C7: `measureIntensity` fails with `SilentBufferError` exactly when the
RMS is zero — it never returns a value on a zero-energy buffer — and on a
non-silent buffer returns the RMS amplitude in decibels relative to the
fixed reference constant. -/
theorem measureIntensity_spec (B : SoundBuffer) :
    (measureIntensity B = .error .silentBuffer ↔ rms B = 0)
    ∧ (rms B ≠ 0 →
        measureIntensity B = .ok (20 * Real.logb 10 (rms B / refPressure))) := by
  constructor
  · rw [rms_eq_zero_iff]
    constructor
    · intro h
      by_contra hm
      rw [measureIntensity, if_neg hm] at h
      exact absurd h (by simp)
    · intro h
      rw [measureIntensity, if_pos h]
  · intro h
    have hm : meanSq B ≠ 0 := fun h0 => h ((rms_eq_zero_iff B).mpr h0)
    rw [measureIntensity, if_neg hm]
    congr 1
    have hsq : (rms B / refPressure) ^ 2 = meanSq B / refPressure ^ 2 := by
      rw [div_pow, rms, Real.sq_sqrt (meanSq_nonneg B)]
    rw [measureVal, ← hsq, Real.logb_pow]
    push_cast
    ring

/-- Witness for C7 at the concrete non-silent buffer `wRef`, discharging the
inner non-silence hypothesis. -/
theorem measureIntensity_spec_witness :
    measureIntensity wRef = .ok (20 * Real.logb 10 (rms wRef / refPressure)) := by
  have h : rms wRef ≠ 0 := by
    rw [rms, show meanSq wRef = 1 by norm_num [meanSq, wRef], Real.sqrt_one]
    norm_num
  exact (measureIntensity_spec wRef).2 h

/-- C1: for a reference normalized to `std`, a level `L` and a generator
state, `synthesize` generates a noise buffer with the reference's sample
count and rate, scales it to `std - L` (so the reference intensity exceeds
the scaled noise intensity by exactly `L` dB before the final
normalization), mixes it sample-wise into the reference, and re-normalizes
the mix to `std`; the generator state advances by the number of noise
samples drawn. -/
theorem synthesize_steps (R : SoundBuffer) (L std : ℝ) (rng : NpRng)
    (hR : measureVal R = std)
    (hN : meanSq (noiseOf R rng) ≠ 0)
    (hM : meanSq (mixedOf R L std rng) ≠ 0) :
    (noiseOf R rng).samples.length = R.samples.length
    ∧ (noiseOf R rng).sampleRate = R.sampleRate
    ∧ measureVal (scaleValBuf (noiseOf R rng) (std - L)) = std - L
    ∧ measureVal R - measureVal (scaleValBuf (noiseOf R rng) (std - L)) = L
    ∧ (∀ i, i < (mixedOf R L std rng).samples.length →
        (mixedOf R L std rng).samples.getD i 0 =
          R.samples.getD i 0 +
            (scaleValBuf (noiseOf R rng) (std - L)).samples.getD i 0)
    ∧ synthesize R L std rng =
        (.ok (scaleValBuf (mixedOf R L std rng) std),
          ⟨rng.stream, rng.pos + R.samples.length⟩) := by
  have hsc : measureVal (scaleValBuf (noiseOf R rng) (std - L)) = std - L :=
    measureVal_scaleValBuf _ _ hN
  have hlen : (scaleValBuf (noiseOf R rng) (std - L)).samples.length =
      R.samples.length := by
    simp [scaleValBuf, noiseOf, generateNoise]
  refine ⟨by simp [noiseOf, generateNoise], rfl, hsc, by rw [hsc, hR]; ring,
    ?_, synthesize_eval R L std rng hN hM⟩
  intro i hi
  simp only [mixedOf] at hi ⊢
  rw [List.length_zipWith] at hi
  have h1 : i < (scaleValBuf (noiseOf R rng) (std - L)).samples.length := by
    omega
  have h2 : i < R.samples.length := by
    rw [hlen] at h1
    exact h1
  rw [List.getD_eq_getElem?_getD, List.getD_eq_getElem?_getD,
    List.getD_eq_getElem?_getD,
    List.getElem?_eq_getElem (by rw [List.length_zipWith]; omega),
    List.getElem?_eq_getElem h1, List.getElem?_eq_getElem h2]
  simp only [Option.getD_some, List.getElem_zipWith]
  exact add_comm _ _

/-- Witness for C1 at the concrete reference `wRef`, level 10, standard
intensity `wStd = measureVal wRef`, and the all-ones generator state. -/
theorem synthesize_steps_witness :
    (noiseOf wRef wRng).samples.length = wRef.samples.length
    ∧ (noiseOf wRef wRng).sampleRate = wRef.sampleRate
    ∧ measureVal (scaleValBuf (noiseOf wRef wRng) (wStd - 10)) = wStd - 10
    ∧ measureVal wRef - measureVal (scaleValBuf (noiseOf wRef wRng) (wStd - 10)) = 10
    ∧ (∀ i, i < (mixedOf wRef 10 wStd wRng).samples.length →
        (mixedOf wRef 10 wStd wRng).samples.getD i 0 =
          wRef.samples.getD i 0 +
            (scaleValBuf (noiseOf wRef wRng) (wStd - 10)).samples.getD i 0)
    ∧ synthesize wRef 10 wStd wRng =
        (.ok (scaleValBuf (mixedOf wRef 10 wStd wRng) wStd),
          ⟨wRng.stream, wRng.pos + wRef.samples.length⟩) := by
  have hnoise : noiseOf wRef wRng = ⟨[1, 1], 44100⟩ := by
    simp [noiseOf, generateNoise, wRef, wRng, List.range_succ]
  have hN : meanSq (noiseOf wRef wRng) ≠ 0 := by
    rw [hnoise]
    norm_num [meanSq]
  have hf : 0 < scaleFactor (noiseOf wRef wRng) (wStd - 10) :=
    scaleFactor_pos _ _
  have hmixsamp : (mixedOf wRef 10 wStd wRng).samples =
      [1 * scaleFactor (noiseOf wRef wRng) (wStd - 10) + 1,
        1 * scaleFactor (noiseOf wRef wRng) (wStd - 10) + 1] := by
    rw [mixedOf, scaleValBuf]
    rw [show wRef.samples = [1, 1] from rfl, hnoise]
    rfl
  have hM : meanSq (mixedOf wRef 10 wStd wRng) ≠ 0 := by
    rw [meanSq, hmixsamp]
    simp only [List.map_cons, List.map_nil, List.sum_cons, List.sum_nil,
      List.length_cons, List.length_nil]
    have : 0 < 1 * scaleFactor (noiseOf wRef wRng) (wStd - 10) + 1 := by
      nlinarith
    positivity
  exact synthesize_steps wRef 10 wStd wRng rfl hN hM

/-- C2 (refuted on the code): two Begin Routine runs that start from the
identical Python `random` module state — the only random source the notebook
seeds, via `random.seed(42)` — but from different states of the global,
never-seeded NumPy generator behind `np.random.normal` produce different
output buffers, so the per-trial synthesis is not reproduced by the seed and
its randomness does not flow through an explicit injectable generator. -/
theorem np_global_rng_nondeterminism :
    (beginRoutine cLib 10 "data/participant_staircase_23032017" 5
        cPy cNpA).outcome ≠
      (beginRoutine cLib 10 "data/participant_staircase_23032017" 5
        cPy cNpB).outcome := by
  intro h
  rw [beginRoutine_outcome, beginRoutine_outcome,
    show cLib (randomChoice conditions cPy).1 = ⟨[1, 0], 44100⟩ from rfl] at h
  have hnA : noiseOf (⟨[1, 0], 44100⟩ : SoundBuffer) cNpA = ⟨[1, 1], 44100⟩ := by
    simp [noiseOf, generateNoise, cNpA, List.range_succ]
  have hnB : noiseOf (⟨[1, 0], 44100⟩ : SoundBuffer) cNpB = ⟨[1, -1], 44100⟩ := by
    simp [noiseOf, generateNoise, cNpB, List.range_succ]
  have hNA : meanSq (noiseOf (⟨[1, 0], 44100⟩ : SoundBuffer) cNpA) ≠ 0 := by
    rw [hnA]
    norm_num [meanSq]
  have hNB : meanSq (noiseOf (⟨[1, 0], 44100⟩ : SoundBuffer) cNpB) ≠ 0 := by
    rw [hnB]
    norm_num [meanSq]
  have hfBA : scaleFactor (⟨[1, -1], 44100⟩ : SoundBuffer) (STANDARD_INTENSITY - 10) =
      scaleFactor (⟨[1, 1], 44100⟩ : SoundBuffer) (STANDARD_INTENSITY - 10) :=
    scaleFactor_congr _ _ _ (by norm_num [meanSq])
  have hfpos : 0 < scaleFactor (⟨[1, 1], 44100⟩ : SoundBuffer) (STANDARD_INTENSITY - 10) :=
    scaleFactor_pos _ _
  have hmixA : mixedOf (⟨[1, 0], 44100⟩ : SoundBuffer) 10 STANDARD_INTENSITY cNpA =
      ⟨[1 * scaleFactor (⟨[1, 1], 44100⟩ : SoundBuffer) (STANDARD_INTENSITY - 10) + 1,
        1 * scaleFactor (⟨[1, 1], 44100⟩ : SoundBuffer) (STANDARD_INTENSITY - 10) + 0],
        44100⟩ := by
    rw [mixedOf, hnA]
    rfl
  have hmixB : mixedOf (⟨[1, 0], 44100⟩ : SoundBuffer) 10 STANDARD_INTENSITY cNpB =
      ⟨[1 * scaleFactor (⟨[1, -1], 44100⟩ : SoundBuffer) (STANDARD_INTENSITY - 10) + 1,
        -1 * scaleFactor (⟨[1, -1], 44100⟩ : SoundBuffer) (STANDARD_INTENSITY - 10) + 0],
        44100⟩ := by
    rw [mixedOf, hnB]
    rfl
  have hMA : meanSq (mixedOf (⟨[1, 0], 44100⟩ : SoundBuffer) 10 STANDARD_INTENSITY cNpA) ≠ 0 := by
    rw [hmixA]
    apply ne_of_gt
    simp only [meanSq, List.map_cons, List.map_nil, List.sum_cons, List.sum_nil,
      List.length_cons, List.length_nil]
    push_cast
    nlinarith [hfpos]
  have hMB : meanSq (mixedOf (⟨[1, 0], 44100⟩ : SoundBuffer) 10 STANDARD_INTENSITY cNpB) ≠ 0 := by
    rw [hmixB, meanSq]
    apply ne_of_gt
    simp only [List.map_cons, List.map_nil, List.sum_cons, List.sum_nil,
      List.length_cons, List.length_nil]
    push_cast
    rw [hfBA]
    nlinarith [hfpos]
  have hsynA := synthesize_eval (⟨[1, 0], 44100⟩ : SoundBuffer) 10
    STANDARD_INTENSITY cNpA hNA hMA
  have hsynB := synthesize_eval (⟨[1, 0], 44100⟩ : SoundBuffer) 10
    STANDARD_INTENSITY cNpB hNB hMB
  simp only [hsynA, hsynB, Except.map] at h
  have h2 := Except.ok.inj h
  have h3 := congrArg SavedStimulus.savedBuffer h2
  simp only at h3
  rw [resample_noop _ _ (by rw [hmixA]; rfl),
    resample_noop _ _ (by rw [hmixB]; rfl), hmixA, hmixB] at h3
  have hgBA : scaleFactor
      (⟨[1 * scaleFactor (⟨[1, 1], 44100⟩ : SoundBuffer) (STANDARD_INTENSITY - 10) + 1,
        -1 * scaleFactor (⟨[1, 1], 44100⟩ : SoundBuffer) (STANDARD_INTENSITY - 10) + 0],
        44100⟩ : SoundBuffer) STANDARD_INTENSITY =
      scaleFactor
      (⟨[1 * scaleFactor (⟨[1, 1], 44100⟩ : SoundBuffer) (STANDARD_INTENSITY - 10) + 1,
        1 * scaleFactor (⟨[1, 1], 44100⟩ : SoundBuffer) (STANDARD_INTENSITY - 10) + 0],
        44100⟩ : SoundBuffer) STANDARD_INTENSITY := by
    apply scaleFactor_congr
    simp only [meanSq, List.map_cons, List.map_nil, List.sum_cons, List.sum_nil,
      List.length_cons, List.length_nil]
    ring
  have hgpos : 0 < scaleFactor
      (⟨[1 * scaleFactor (⟨[1, 1], 44100⟩ : SoundBuffer) (STANDARD_INTENSITY - 10) + 1,
        1 * scaleFactor (⟨[1, 1], 44100⟩ : SoundBuffer) (STANDARD_INTENSITY - 10) + 0],
        44100⟩ : SoundBuffer) STANDARD_INTENSITY := scaleFactor_pos _ _
  have h4 := congrArg (fun X : SoundBuffer => X.samples.getD 1 0) h3
  simp only [scaleValBuf, List.map_cons, List.map_nil, List.getD_cons_succ,
    List.getD_cons_zero, hfBA, hgBA] at h4
  nlinarith [h4, hfpos, hgpos]

/-- C4 (refuted on the code): adding two same-length buffers whose sample
rates differ does not fail with `SampleRateMismatchError` — the NumPy
element-wise addition `noisy_stimulus.values += random_stimulus.values`
succeeds, summing the samples and keeping the left operand's rate. -/
theorem addValues_rate_mismatch_no_error :
    (⟨[1, 2], 100⟩ : SoundBuffer).sampleRate ≠
      (⟨[3, 4], 200⟩ : SoundBuffer).sampleRate
    ∧ addValues ⟨[1, 2], 100⟩ ⟨[3, 4], 200⟩ ≠ .error .sampleRateMismatch
    ∧ addValues ⟨[1, 2], 100⟩ ⟨[3, 4], 200⟩ = .ok ⟨[1 + 3, 2 + 4], 100⟩ := by
  have hok : addValues (⟨[1, 2], 100⟩ : SoundBuffer) ⟨[3, 4], 200⟩ =
      .ok ⟨[1 + 3, 2 + 4], 100⟩ := by
    rw [addValues, if_pos (show (⟨[1, 2], 100⟩ : SoundBuffer).samples.length =
      (⟨[3, 4], 200⟩ : SoundBuffer).samples.length from rfl)]
    rfl
  exact ⟨by norm_num, by rw [hok]; exact fun hc => Except.noConfusion hc, hok⟩

/-- C4 (amended): the mixing step performs element-wise addition with no
sample-rate check — for equal-length buffers it succeeds whatever the rates,
returning the sample-wise sum at the left buffer's rate (so it never
resamples), and it fails only on a length mismatch. -/
theorem addValues_semantics (A B : SoundBuffer) :
    (A.samples.length = B.samples.length →
      addValues A B = .ok ⟨A.samples.zipWith (· + ·) B.samples, A.sampleRate⟩)
    ∧ (A.samples.length ≠ B.samples.length →
      addValues A B = .error .lengthMismatch)
    ∧ ∀ C, addValues A B = .ok C → C.sampleRate = A.sampleRate := by
  refine ⟨fun h => by rw [addValues, if_pos h],
    fun h => by rw [addValues, if_neg h], ?_⟩
  intro C hC
  rw [addValues] at hC
  by_cases h : A.samples.length = B.samples.length
  · rw [if_pos h] at hC
    have h2 := Except.ok.inj hC
    rw [← h2]
  · rw [if_neg h] at hC
    exact absurd hC (by simp)

/-- Witness for the amended C4: a concrete equal-length, mismatched-rate
pair on which the addition succeeds at the left rate. -/
theorem addValues_semantics_witness :
    addValues ⟨[1, 2], 100⟩ ⟨[3, 4], 300⟩ =
      .ok ⟨(⟨[1, 2], 100⟩ : SoundBuffer).samples.zipWith (· + ·)
        (⟨[3, 4], 300⟩ : SoundBuffer).samples,
        (⟨[1, 2], 100⟩ : SoundBuffer).sampleRate⟩ :=
  (addValues_semantics ⟨[1, 2], 100⟩ ⟨[3, 4], 300⟩).1 rfl

/-! ### Decimal representation facts for the file-name claim -/

lemma digitChar_sub_48 : ∀ m : ℕ, m < 10 → (Nat.digitChar m).toNat - 48 = m := by
  decide

lemma toDigitsCore_eq_decDigits :
    ∀ f n : ℕ, n < f → ∀ l : List Char,
      Nat.toDigitsCore 10 f n l = decDigits n ++ l := by
  intro f
  induction f with
  | zero => intro n h; omega
  | succ f ih =>
    intro n h l
    simp only [Nat.toDigitsCore]
    by_cases h10 : n / 10 = 0
    · rw [if_pos h10, decDigits, dif_pos (by omega : n < 10)]
      simp
    · rw [if_neg h10, ih (n / 10) (by omega)]
      conv_rhs => rw [decDigits]
      rw [dif_neg (by omega : ¬n < 10)]
      simp

lemma digitsVal_decDigits : ∀ n : ℕ, digitsVal (decDigits n) = n := by
  intro n
  induction n using Nat.strong_induction_on with
  | _ n ih =>
    by_cases h10 : n < 10
    · rw [decDigits, dif_pos h10, digitsVal]
      simp only [List.foldl_cons, List.foldl_nil, Nat.mul_zero, Nat.zero_add]
      rw [digitChar_sub_48 (n % 10) (by omega)]
      omega
    · rw [decDigits, dif_neg h10, digitsVal, List.foldl_append]
      have ihv : digitsVal (decDigits (n / 10)) = n / 10 :=
        ih (n / 10) (by omega)
      rw [digitsVal] at ihv
      simp only [List.foldl_cons, List.foldl_nil, ihv]
      rw [digitChar_sub_48 (n % 10) (by omega)]
      omega

lemma repr_eq_decDigits (n : ℕ) : Nat.repr n = (decDigits n).asString := by
  rw [Nat.repr, Nat.toDigits,
    toDigitsCore_eq_decDigits (n + 1) n (Nat.lt_succ_self n) [],
    List.append_nil]

lemma nat_repr_injective : Function.Injective Nat.repr := by
  intro a b h
  rw [repr_eq_decDigits, repr_eq_decDigits] at h
  have h2 : decDigits a = decDigits b := List.asString_inj.mp h
  have h3 := congrArg digitsVal h2
  rwa [digitsVal_decDigits, digitsVal_decDigits] at h3

/-- C6: `buildPath` is a pure function returning exactly
`"{baseName}_stimulus_{trialIndex}.wav"`; for a fixed base name distinct
trial indices yield distinct paths, and equal arguments yield equal
paths. -/
theorem buildPath_spec (b : String) (n m k : ℕ) :
    buildPath b n = b ++ "_stimulus_" ++ toString n ++ ".wav"
    ∧ (n ≠ m → buildPath b n ≠ buildPath b m)
    ∧ buildPath b k = buildPath b k := by
  refine ⟨rfl, ?_, rfl⟩
  intro hnm hpath
  apply hnm
  apply nat_repr_injective
  have h1 := congrArg String.data hpath
  simp only [buildPath, String.data_append] at h1
  have h2 := List.append_cancel_right h1
  have h3 := List.append_cancel_left h2
  exact String.ext h3

/-- Witness for C6 at the spec's own example: base `"p1"`, indices 3, 4. -/
theorem buildPath_spec_witness :
    buildPath "p1" 3 = "p1" ++ "_stimulus_" ++ toString 3 ++ ".wav"
    ∧ (3 ≠ 4 → buildPath "p1" 3 ≠ buildPath "p1" 4)
    ∧ buildPath "p1" 3 = buildPath "p1" 3 :=
  buildPath_spec "p1" 3 4 3

/-- C8: a Begin Routine run returns the condition library unchanged — the
in-place scaling and mixing of the source only ever target the
freshly-created noise buffer, never a library reference. -/
theorem beginRoutine_library_unchanged (stimuli : String → SoundBuffer)
    (level : ℝ) (filename : String) (thisTrialN : ℕ) (py : PyRng)
    (np : NpRng) :
    (beginRoutine stimuli level filename thisTrialN py np).stimuli = stimuli :=
  rfl

/-- C9: `resample` returns the input unchanged when the target rate equals
the buffer's rate, and in every case produces a buffer at the target rate
whose total duration matches the input's to within one sample period
`1/targetRate`. -/
theorem resample_spec (B : SoundBuffer) (targetRate : ℕ)
    (ht : 0 < targetRate) (hr : 0 < B.sampleRate) :
    (targetRate = B.sampleRate → resample B targetRate = B)
    ∧ (resample B targetRate).sampleRate = targetRate
    ∧ |duration (resample B targetRate) - duration B| ≤ 1 / (targetRate : ℝ) := by
  by_cases heq : targetRate = B.sampleRate
  · have hres : resample B targetRate = B := by rw [resample, if_pos heq]
    refine ⟨fun _ => hres, ?_, ?_⟩
    · rw [hres, heq]
    · rw [hres, sub_self, abs_zero]
      positivity
  · have hres : resample B targetRate =
        ⟨(List.range ((2 * B.samples.length * targetRate + B.sampleRate) /
            (2 * B.sampleRate))).map fun j =>
          B.samples.getD (j * B.sampleRate / targetRate) 0, targetRate⟩ := by
      rw [resample, if_neg heq]
    refine ⟨fun hc => absurd hc heq, by rw [hres], ?_⟩
    rw [hres, duration, duration]
    simp only [List.length_map, List.length_range]
    set n := B.samples.length with hn
    set r := B.sampleRate with hrdef
    set q := (2 * n * targetRate + r) / (2 * r) with hq
    have hdm := Nat.div_add_mod (2 * n * targetRate + r) (2 * r)
    have hmlt : (2 * n * targetRate + r) % (2 * r) < 2 * r :=
      Nat.mod_lt _ (by omega)
    rw [← hq] at hdm
    have ht' : (0 : ℝ) < targetRate := by exact_mod_cast ht
    have hr' : (0 : ℝ) < r := by exact_mod_cast hr
    have hdm' : (2 * r : ℝ) * q + ((2 * n * targetRate + r) % (2 * r) : ℕ) =
        2 * n * targetRate + r := by exact_mod_cast hdm
    have hmlt' : (((2 * n * targetRate + r) % (2 * r) : ℕ) : ℝ) < 2 * r := by
      exact_mod_cast hmlt
    have hm0 : (0 : ℝ) ≤ (((2 * n * targetRate + r) % (2 * r) : ℕ) : ℝ) :=
      Nat.cast_nonneg _
    rw [abs_sub_le_iff]
    constructor
    · rw [div_sub_div _ _ (ne_of_gt ht') (ne_of_gt hr'),
        div_le_div_iff₀ (by positivity) ht']
      nlinarith
    · rw [div_sub_div _ _ (ne_of_gt hr') (ne_of_gt ht'),
        div_le_div_iff₀ (by positivity) ht']
      nlinarith

/-- Witness for C9 at a concrete buffer and rates. -/
theorem resample_spec_witness :
    (3 = (⟨[1], 2⟩ : SoundBuffer).sampleRate → resample ⟨[1], 2⟩ 3 = ⟨[1], 2⟩)
    ∧ (resample ⟨[1], 2⟩ 3).sampleRate = 3
    ∧ |duration (resample ⟨[1], 2⟩ 3) - duration ⟨[1], 2⟩| ≤ 1 / (3 : ℝ) :=
  resample_spec ⟨[1], 2⟩ 3 (by norm_num) (by norm_num)

/-- C10: the correctness boolean handed to the staircase controller is true
exactly when the pressed key equals the trial's randomly chosen condition
label; it is a function of those two values alone. -/
theorem endRoutineResponse_spec (keys random_condition : String) :
    endRoutineResponse keys random_condition = (keys == random_condition)
    ∧ (endRoutineResponse keys random_condition = true ↔
        keys = random_condition) := by
  refine ⟨rfl, ?_⟩
  rw [endRoutineResponse]
  exact beq_iff_eq

end StimulusPipeline
